import Mathlib

/-!
Shallow embedding of the blitz-chess engine core (src/engine/src/) and proofs
about it.  Rust `u8`/`u16` values are modelled as `Nat`; every operation that
can panic in the source (`unwrap`, `expect`, `unreachable!`) is modelled as an
`Option`-returning function, with `none` standing for the panic.
-/

namespace Blitz

-- ============================================================================
-- Color (board.rs)
-- ============================================================================

/-- Side colors.  From `enum Color` in board.rs, with discriminants 0 and 1. -/
inductive Color where
  | White
  | Black
deriving DecidableEq

/-- The `repr(u8)` discriminant of a `Color` (`color as u8` in the source). -/
def Color.toU8 : Color → Nat
  | .White => 0
  | .Black => 1

/-- Color negation; `impl Not for Color` in board.rs. -/
def Color.not : Color → Color
  | .White => .Black
  | .Black => .White

-- ============================================================================
-- PieceType (board.rs)
-- ============================================================================

/-- Piece kinds.  From `enum PieceType` in board.rs. -/
inductive PieceType where
  | Knight
  | Bishop
  | Rook
  | Queen
  | Pawn
  | King
deriving DecidableEq

/-- The `repr(u8)` discriminant of a `PieceType` as declared in board.rs. -/
def PieceType.toU8 : PieceType → Nat
  | .Knight => 0
  | .Bishop => 1
  | .Rook => 2
  | .Queen => 3
  | .Pawn => 4
  | .King => 5

/-- `PieceType::PROMOTABLE` from board.rs. -/
def PieceType.PROMOTABLE : List PieceType := [.Knight, .Bishop, .Rook, .Queen]

/-- `PieceType::from_u8`.  The source has `_ => unreachable!()`; the panic is
modelled as `none`. -/
def PieceType.from_u8 (value : Nat) : Option PieceType :=
  match value with
  | 0 => some .Knight
  | 1 => some .Bishop
  | 2 => some .Rook
  | 3 => some .Queen
  | 4 => some .Pawn
  | 5 => some .King
  | _ => none

-- ============================================================================
-- Lateral (board.rs)
-- ============================================================================

/-- Lateral direction relative to a color's advance; `enum Lateral` in
board.rs, with `repr(i8)` discriminants -1, 0, 1. -/
inductive Lateral where
  | Left
  | Straight
  | Right
deriving DecidableEq

/-- The `repr(i8)` discriminant of a `Lateral` (`lateral as i8`). -/
def Lateral.toInt : Lateral → Int
  | .Left => -1
  | .Straight => 0
  | .Right => 1

-- ============================================================================
-- Square (board.rs)
-- ============================================================================

/-- A board square; newtype over the `u8` linear index, from board.rs. -/
structure Square where
  value : Nat
deriving DecidableEq

/-- `Square::from_coords(rank, file)`: `(rank << 3) | file`. -/
def Square.from_coords (rank file : Nat) : Square := ⟨(rank <<< 3) ||| file⟩

/-- `Square::from_index`. -/
def Square.from_index (index : Nat) : Square := ⟨index⟩

/-- `Square::rank`: `value >> 3`. -/
def Square.rank (s : Square) : Nat := s.value >>> 3

/-- `Square::file`: `value & 0b111`. -/
def Square.file (s : Square) : Nat := s.value &&& 7

/-- `Square::index`. -/
def Square.index (s : Square) : Nat := s.value

/-- `Square::in_bounds(rank, file)` over signed coordinates. -/
def Square.in_bounds (rank file : Int) : Bool :=
  decide (0 ≤ rank ∧ rank < 8 ∧ 0 ≤ file ∧ file < 8)

/-- Result of an `i8` addition under two's-complement wrapping.  The additions
in `Square::offset` are `i8` additions; wrapping matters only for inputs that
are out of range anyway (for every square value < 64 the wrapped and the exact
sum are either both in `[0,8)` and equal, or both rejected by `in_bounds`). -/
def wrapI8 (x : Int) : Int := (x + 128) % 256 - 128

/-- `Square::offset(dr, df)`: bounds-checked signed offset, board.rs. -/
def Square.offset (s : Square) (dr df : Int) : Option Square :=
  let r := wrapI8 ((s.rank : Int) + dr)
  let f := wrapI8 ((s.file : Int) + df)
  if Square.in_bounds r f then some (Square.from_coords r.toNat f.toNat) else none

/-- `Square::forward(color, steps, lateral)`, board.rs. -/
def Square.forward (s : Square) (color : Color) (steps : Int) (lateral : Lateral) :
    Option Square :=
  match color with
  | .White => s.offset steps lateral.toInt
  | .Black => s.offset (-steps) (-lateral.toInt)

-- ============================================================================
-- Piece (board.rs)
-- ============================================================================

/-- A piece; newtype over its packed `u8` encoding, from board.rs. -/
structure Piece where
  value : Nat
deriving DecidableEq

/-- Bit 7 of the piece encoding. -/
def Piece.OCCUPIED_BIT : Nat := 128

/-- Bit 6 of the piece encoding. -/
def Piece.MOVED_BIT : Nat := 64

/-- Bit 3 of the piece encoding. -/
def Piece.COLOR_BIT : Nat := 8

/-- Bits 2-0 of the piece encoding. -/
def Piece.PIECE_MASK : Nat := 7

/-- `Piece::new(piece_type, color)`. -/
def Piece.new (piece_type : PieceType) (color : Color) : Piece :=
  ⟨Piece.OCCUPIED_BIT ||| (color.toU8 <<< 3) ||| piece_type.toU8⟩

/-- `Piece::is_empty_value`. -/
def Piece.is_empty_value (value : Nat) : Bool :=
  decide (value &&& Piece.OCCUPIED_BIT = 0)

/-- `Piece::from_value`. -/
def Piece.from_value (value : Nat) : Option Piece :=
  if Piece.is_empty_value value then none else some ⟨value⟩

/-- `Piece::has_moved`. -/
def Piece.has_moved (p : Piece) : Bool :=
  decide (p.value &&& Piece.MOVED_BIT ≠ 0)

/-- `Piece::piece_type`; the `unreachable!()` inside `PieceType::from_u8` is
modelled as `none`. -/
def Piece.piece_type (p : Piece) : Option PieceType :=
  PieceType.from_u8 (p.value &&& Piece.PIECE_MASK)

/-- `Piece::color`. -/
def Piece.color (p : Piece) : Color :=
  if p.value &&& Piece.COLOR_BIT ≠ 0 then .Black else .White

/-- `Piece::with_moved`. -/
def Piece.with_moved (p : Piece) : Piece := ⟨p.value ||| Piece.MOVED_BIT⟩

-- ============================================================================
-- Board (board.rs)
-- ============================================================================

/-- The 64-slot board; `struct Board { squares: [u8; 64] }`.  The fixed array
length is carried as an invariant field. -/
structure Board where
  squares : List Nat
  length_eq : squares.length = 64

/-- `Board::new`. -/
def Board.new : Board := ⟨List.replicate 64 0, by simp⟩

/-- Read the raw byte at a square (`board[s]` via the `Index` impl). -/
def Board.get (b : Board) (s : Square) : Nat := b.squares.getD s.index 0

/-- Write the raw byte at a square (`board[s] = v` via `IndexMut`). -/
def Board.write (b : Board) (s : Square) (v : Nat) : Board :=
  ⟨b.squares.set s.index v, by rw [List.length_set]; exact b.length_eq⟩

/-- `Board::piece_at`. -/
def Board.piece_at (b : Board) (s : Square) : Option Piece :=
  Piece.from_value (b.get s)

/-- `Board::is_empty`. -/
def Board.is_empty (b : Board) (s : Square) : Bool :=
  Piece.is_empty_value (b.get s)

/-- `Board::pieces`: occupied squares in index order. -/
def Board.pieces (b : Board) : List (Square × Piece) :=
  (List.range 64).filterMap fun i =>
    (b.piece_at (Square.from_index i)).map fun p => (Square.from_index i, p)

/-- `Board::set_piece`: returns the new board and the replaced occupant. -/
def Board.set_piece (b : Board) (p : Piece) (s : Square) : Board × Option Piece :=
  (b.write s p.value, Piece.from_value (b.get s))

/-- `Board::remove_piece`: returns the new board and the removed occupant. -/
def Board.remove_piece (b : Board) (s : Square) : Board × Option Piece :=
  (b.write s 0, Piece.from_value (b.get s))

/-- `Board::move_piece`: `remove_piece(from).and_then(|p| set_piece(p.with_moved(), to))`.
The returned option is the occupant that was replaced at `to` (the capture),
and `none` when `from` was empty (in which case only the `remove_piece` write,
a no-op at piece level, has happened). -/
def Board.move_piece (b : Board) (from_sq to_sq : Square) : Board × Option Piece :=
  let removed := b.remove_piece from_sq
  match removed.2 with
  | none => (removed.1, none)
  | some piece => removed.1.set_piece piece.with_moved to_sq

-- ============================================================================
-- CastlingSide (castling.rs)
-- ============================================================================

/-- Castling sides; `enum CastlingSide` with discriminants 0 and 1. -/
inductive CastlingSide where
  | Kingside
  | Queenside
deriving DecidableEq

/-- The `repr(u8)` discriminant of a `CastlingSide`. -/
def CastlingSide.toU8 : CastlingSide → Nat
  | .Kingside => 0
  | .Queenside => 1

/-- `CastlingSide::KING_FILE`. -/
def CastlingSide.KING_FILE : Nat := 4

/-- `CastlingSide::king_target_file`; the source indexes `KING_TARGETS = [6, 2]`
by the side discriminant. -/
def CastlingSide.king_target_file : CastlingSide → Nat
  | .Kingside => 6
  | .Queenside => 2

/-- `CastlingSide::rook_source_file`; indexes `ROOK_SOURCES = [7, 0]`. -/
def CastlingSide.rook_source_file : CastlingSide → Nat
  | .Kingside => 7
  | .Queenside => 0

/-- `CastlingSide::rook_target_file`; indexes `ROOK_TARGETS = [5, 3]`. -/
def CastlingSide.rook_target_file : CastlingSide → Nat
  | .Kingside => 5
  | .Queenside => 3

/-- `CastlingSide::from_rook_file`. -/
def CastlingSide.from_rook_file (file : Nat) : Option CastlingSide :=
  if file = CastlingSide.rook_source_file .Kingside then some .Kingside
  else if file = CastlingSide.rook_source_file .Queenside then some .Queenside
  else none

/-- Modelled from the spec: `Color::home_rank` is called by
`CastlingSide::from_rook_square` in castling.rs but is not defined anywhere
under src/; the spec glossary fixes it as back rank 0 for White and 7 for
Black. -/
def Color.home_rank : Color → Nat
  | .White => 0
  | .Black => 7

/-- `CastlingSide::from_rook_square(square, color)`. -/
def CastlingSide.from_rook_square (square : Square) (color : Color) :
    Option CastlingSide :=
  if square.rank ≠ color.home_rank then none
  else CastlingSide.from_rook_file square.file

-- ============================================================================
-- CastlingRights (castling.rs)
-- ============================================================================

/-- Castling rights; newtype over the packed 4-bit `u8` set. -/
structure CastlingRights where
  value : Nat
deriving DecidableEq

/-- `CastlingRights::bit_position(c, s) = (c as u8) * 2 + (s as u8)`. -/
def CastlingRights.bit_position (c : Color) (s : CastlingSide) : Nat :=
  c.toU8 * 2 + s.toU8

/-- `CastlingRights::none()`. -/
def CastlingRights.none : CastlingRights := ⟨0⟩

/-- `CastlingRights::all()`. -/
def CastlingRights.all : CastlingRights := ⟨15⟩

/-- `CastlingRights::has(color, side)`. -/
def CastlingRights.has (r : CastlingRights) (color : Color) (side : CastlingSide) :
    Bool :=
  decide (r.value &&& (1 <<< CastlingRights.bit_position color side) ≠ 0)

/-- `CastlingRights::is_empty`. -/
def CastlingRights.is_empty (r : CastlingRights) : Bool := decide (r.value = 0)

/-- `CastlingRights::any(color)`. -/
def CastlingRights.any (r : CastlingRights) (color : Color) : Bool :=
  r.has color .Kingside || r.has color .Queenside

/-- `CastlingRights::gain(color, side)`. -/
def CastlingRights.gain (r : CastlingRights) (color : Color) (side : CastlingSide) :
    CastlingRights :=
  ⟨r.value ||| (1 <<< CastlingRights.bit_position color side)⟩

/-- `CastlingRights::lose(color, side)`: `self.0 & !bit` with `u8` negation,
i.e. masking with `255 XOR bit`. -/
def CastlingRights.lose (r : CastlingRights) (color : Color) (side : CastlingSide) :
    CastlingRights :=
  ⟨r.value &&& (255 ^^^ (1 <<< CastlingRights.bit_position color side))⟩

/-- `CastlingRights::lose_all(color)`. -/
def CastlingRights.lose_all (r : CastlingRights) (color : Color) : CastlingRights :=
  (r.lose color .Kingside).lose color .Queenside

/-- `CastlingRights::lose_for_rook_at(square, color)`. -/
def CastlingRights.lose_for_rook_at (r : CastlingRights) (square : Square)
    (color : Color) : CastlingRights :=
  match CastlingSide.from_rook_square square color with
  | some side => r.lose color side
  | Option.none => r

-- ============================================================================
-- MoveType and Move (mv.rs)
-- ============================================================================

/-- Move categories; `enum MoveType` in mv.rs. -/
inductive MoveType where
  | Normal
  | Promotion
  | EnPassant
  | Castling
deriving DecidableEq

/-- The `repr(u8)` discriminant of a `MoveType`. -/
def MoveType.toU8 : MoveType → Nat
  | .Normal => 0
  | .Promotion => 1
  | .EnPassant => 2
  | .Castling => 3

/-- `MoveType::from_u8`; `_ => unreachable!()` modelled as `none`. -/
def MoveType.from_u8 (value : Nat) : Option MoveType :=
  match value with
  | 0 => some .Normal
  | 1 => some .Promotion
  | 2 => some .EnPassant
  | 3 => some .Castling
  | _ => none

/-- A move; newtype over the packed `u16` encoding, from mv.rs. -/
structure Move where
  value : Nat
deriving DecidableEq

/-- `Move::new(source, target)`: a Normal move. -/
def Move.new (source target : Square) : Move :=
  ⟨source.value ||| (target.value <<< 6)⟩

/-- `Move::promotion(source, target, promoted_to)`. -/
def Move.promotion (source target : Square) (promoted_to : PieceType) : Move :=
  ⟨source.value ||| (target.value <<< 6) ||| (promoted_to.toU8 <<< 12) |||
    (MoveType.toU8 .Promotion <<< 14)⟩

/-- `Move::en_passant(source, target)`. -/
def Move.en_passant (source target : Square) : Move :=
  ⟨source.value ||| (target.value <<< 6) ||| (MoveType.toU8 .EnPassant <<< 14)⟩

/-- `Move::castling(source, target)`. -/
def Move.castling (source target : Square) : Move :=
  ⟨source.value ||| (target.value <<< 6) ||| (MoveType.toU8 .Castling <<< 14)⟩

/-- `Move::source`. -/
def Move.source (m : Move) : Square := Square.from_index (m.value &&& 63)

/-- `Move::target`. -/
def Move.target (m : Move) : Square := Square.from_index ((m.value >>> 6) &&& 63)

/-- `Move::move_type`. -/
def Move.move_type (m : Move) : Option MoveType :=
  MoveType.from_u8 ((m.value >>> 14) &&& 3)

/-- `Move::promotion_piece`: `Some` of the decoded kind iff the category is
`Promotion`. -/
def Move.promotion_piece (m : Move) : Option PieceType :=
  match m.move_type with
  | some .Promotion => PieceType.from_u8 ((m.value >>> 12) &&& 3)
  | _ => Option.none

/-- `Move::castling_side`: kingside iff target file > source file. -/
def Move.castling_side (m : Move) : CastlingSide :=
  if m.target.file > m.source.file then .Kingside else .Queenside

/-- `Move::castling_rook_squares`. -/
def Move.castling_rook_squares (m : Move) : Square × Square :=
  (Square.from_coords m.source.rank m.castling_side.rook_source_file,
   Square.from_coords m.source.rank m.castling_side.rook_target_file)

/-- `Move::en_passant_capture`: `(source rank, target file)`. -/
def Move.en_passant_capture (m : Move) : Square :=
  Square.from_coords m.source.rank m.target.file

-- ============================================================================
-- State (state.rs)
-- ============================================================================

/-- The full game state; `struct State` in state.rs. -/
structure State where
  board : Board
  to_move : Color
  castling_rights : CastlingRights
  en_passant : Option Square
  halfmove_clock : Nat
  fullmove_number : Nat

/-- `State::resulting_en_passant(mv, piece)`. -/
def State.resulting_en_passant (s : State) (mv : Move) (piece : Piece) :
    Option Square :=
  if piece.piece_type ≠ some .Pawn then Option.none
  else if ((mv.target.rank : Int) - (mv.source.rank : Int)).natAbs ≠ 2 then Option.none
  else mv.source.forward s.to_move 1 .Straight

/-- `State::apply_normal`.  The `piece_at(source).unwrap()` panic on an empty
source square is modelled as `none`.  The source leaves `castling_rights`
unchanged (marked `TODO: update` there). -/
def State.apply_normal (s : State) (mv : Move) : Option State :=
  match s.board.piece_at mv.source with
  | Option.none => Option.none
  | some piece =>
    let moved := s.board.move_piece mv.source mv.target
    some { board := moved.1
         , to_move := s.to_move.not
         , castling_rights := s.castling_rights
         , en_passant := s.resulting_en_passant mv piece
         , halfmove_clock :=
             if piece.piece_type = some PieceType.Pawn ∨ moved.2.isSome then 0
             else s.halfmove_clock + 1
         , fullmove_number :=
             s.fullmove_number + (if s.to_move = Color.Black then 1 else 0) }

/-- `State::apply_promotion`.  The `promotion_piece().unwrap()` panic is
modelled as `none`.  The source leaves `castling_rights` unchanged (marked
`TODO: update` there). -/
def State.apply_promotion (s : State) (mv : Move) : Option State :=
  let b1 := (s.board.remove_piece mv.target).1
  let b2 := (b1.remove_piece mv.source).1
  match mv.promotion_piece with
  | Option.none => Option.none
  | some kind =>
    let promoted := (Piece.new kind s.to_move).with_moved
    some { board := (b2.set_piece promoted mv.target).1
         , to_move := s.to_move.not
         , castling_rights := s.castling_rights
         , en_passant := Option.none
         , halfmove_clock := 0
         , fullmove_number :=
             s.fullmove_number + (if s.to_move = Color.Black then 1 else 0) }

/-- `State::apply_en_passant`. -/
def State.apply_en_passant (s : State) (mv : Move) : State :=
  let b1 := (s.board.move_piece mv.source mv.target).1
  let b2 := (b1.remove_piece mv.en_passant_capture).1
  { board := b2
  , to_move := s.to_move.not
  , castling_rights := s.castling_rights
  , en_passant := Option.none
  , halfmove_clock := 0
  , fullmove_number :=
      s.fullmove_number + (if s.to_move = Color.Black then 1 else 0) }

/-- `State::apply_castling`. -/
def State.apply_castling (s : State) (mv : Move) : State :=
  let b1 := (s.board.move_piece mv.source mv.target).1
  let rooks := mv.castling_rook_squares
  let b2 := (b1.move_piece rooks.1 rooks.2).1
  { board := b2
  , to_move := s.to_move.not
  , castling_rights := s.castling_rights.lose_all s.to_move
  , en_passant := Option.none
  , halfmove_clock := s.halfmove_clock + 1
  , fullmove_number :=
      s.fullmove_number + (if s.to_move = Color.Black then 1 else 0) }

/-- `State::apply_move`: dispatch on the move category. -/
def State.apply_move (s : State) (mv : Move) : Option State :=
  match mv.move_type with
  | some .Normal => s.apply_normal mv
  | some .Promotion => s.apply_promotion mv
  | some .EnPassant => some (s.apply_en_passant mv)
  | some .Castling => some (s.apply_castling mv)
  | Option.none => Option.none

-- ============================================================================
-- Move generation (mobility.rs)
-- ============================================================================

/-- `KNIGHT_OFFSETS` from mobility.rs. -/
def KNIGHT_OFFSETS : List (Int × Int) :=
  [(-2, -1), (-2, 1), (-1, -2), (-1, 2), (1, -2), (1, 2), (2, -1), (2, 1)]

/-- `knight_moves(state, from)`: the eight offsets, filtered by bounds and by
not landing on an own piece. -/
def knight_moves (s : State) (from_sq : Square) : List Move :=
  KNIGHT_OFFSETS.filterMap fun d =>
    (from_sq.offset d.1 d.2).bind fun to_sq =>
      match s.board.piece_at to_sq with
      | Option.none => some (Move.new from_sq to_sq)
      | some target =>
        if target.color ≠ s.to_move then some (Move.new from_sq to_sq)
        else Option.none

/-- `pawn_moves`: the source body is `// TODO: implement pawn moves` and
yields nothing. -/
def pawn_moves (_s : State) (_from_sq : Square) : List Move := []

/-- `bishop_moves`: the source body is a TODO and yields nothing. -/
def bishop_moves (_s : State) (_from_sq : Square) : List Move := []

/-- `rook_moves`: the source body is a TODO and yields nothing. -/
def rook_moves (_s : State) (_from_sq : Square) : List Move := []

/-- `queen_moves`: the source body is a TODO and yields nothing. -/
def queen_moves (_s : State) (_from_sq : Square) : List Move := []

/-- `king_moves`: the source body is a TODO and yields nothing. -/
def king_moves (_s : State) (_from_sq : Square) : List Move := []

/-- `pseudo_legal_moves(state)`: per-piece dispatch over the occupied squares
of the side to move.  A malformed piece byte would panic inside
`piece_type()` in the source; that (unreachable) case yields nothing here. -/
def pseudo_legal_moves (s : State) : List Move :=
  s.board.pieces.flatMap fun sp =>
    if sp.2.color = s.to_move then
      match sp.2.piece_type with
      | some .Pawn => pawn_moves s sp.1
      | some .Knight => knight_moves s sp.1
      | some .Bishop => bishop_moves s sp.1
      | some .Rook => rook_moves s sp.1
      | some .Queen => queen_moves s sp.1
      | some .King => king_moves s sp.1
      | Option.none => []
    else []

/-- `is_square_attacked(board, square, by)` from mobility.rs: the source only
implements the knight check; sliding pieces, pawns and kings are marked TODO
and contribute nothing. -/
def is_square_attacked (board : Board) (square : Square) (by_color : Color) :
    Bool :=
  KNIGHT_OFFSETS.any fun d =>
    match square.offset d.1 d.2 with
    | some sq =>
      match board.piece_at sq with
      | some piece =>
        decide (piece.color = by_color) && decide (piece.piece_type = some PieceType.Knight)
      | Option.none => false
    | Option.none => false

/-- `find_king(board, color)`; the `.expect("king must exist")` panic is
modelled as `none`. -/
def find_king (board : Board) (color : Color) : Option Square :=
  (board.pieces.find? fun sp =>
    decide (sp.2.piece_type = some PieceType.King) && decide (sp.2.color = color)).map
    fun sp => sp.1

/-- `is_legal(state, mv)`: simulate on a copy, then check the mover's king is
not attacked.  Panics inside `apply_move` or `find_king` are modelled as
`none`. -/
def is_legal (s : State) (mv : Move) : Option Bool :=
  match s.apply_move mv with
  | Option.none => Option.none
  | some s2 =>
    match find_king s2.board s.to_move with
    | Option.none => Option.none
    | some king_sq => some (!is_square_attacked s2.board king_sq s.to_move.not)

/-- `MoveGenerator::all`: pseudo-legal moves filtered by legality. -/
def MoveGenerator.all (s : State) : List Move :=
  (pseudo_legal_moves s).filter fun mv => decide (is_legal s mv = some true)

/-- `MoveGenerator::from`: legal moves from one square. -/
def MoveGenerator.from_square (s : State) (sq : Square) : List Move :=
  (pseudo_legal_moves s).filter fun mv =>
    decide (mv.source = sq) && decide (is_legal s mv = some true)

/-- `is_in_check(state)`; the `find_king` panic is modelled as `none`. -/
def is_in_check (s : State) : Option Bool :=
  match find_king s.board s.to_move with
  | Option.none => Option.none
  | some king_sq => some (is_square_attacked s.board king_sq s.to_move.not)

-- ============================================================================
-- Property-side helpers
-- ============================================================================

/-- Whether a raw board byte holds a king of the given color. -/
def is_king_value (c : Color) (v : Nat) : Bool :=
  match Piece.from_value v with
  | some p => decide (p.piece_type = some PieceType.King) && decide (p.color = c)
  | Option.none => false

/-- Number of kings of a color on the board. -/
def count_kings (b : Board) (c : Color) : Nat :=
  b.squares.countP (is_king_value c)

-- ============================================================================
-- Concrete inputs
-- ============================================================================

/-- 64 empty square bytes. -/
def empty64 : List Nat := List.replicate 64 0

/-- The standard initial chess position board (rank 0 = White's back rank). -/
def initial_board : Board :=
  ⟨[(Piece.new .Rook .White).value, (Piece.new .Knight .White).value,
    (Piece.new .Bishop .White).value, (Piece.new .Queen .White).value,
    (Piece.new .King .White).value, (Piece.new .Bishop .White).value,
    (Piece.new .Knight .White).value, (Piece.new .Rook .White).value]
   ++ List.replicate 8 (Piece.new .Pawn .White).value
   ++ List.replicate 32 0
   ++ List.replicate 8 (Piece.new .Pawn .Black).value
   ++ [(Piece.new .Rook .Black).value, (Piece.new .Knight .Black).value,
    (Piece.new .Bishop .Black).value, (Piece.new .Queen .Black).value,
    (Piece.new .King .Black).value, (Piece.new .Bishop .Black).value,
    (Piece.new .Knight .Black).value, (Piece.new .Rook .Black).value], by rfl⟩

/-- The standard initial position with White to move. -/
def initial_state : State :=
  { board := initial_board, to_move := .White,
    castling_rights := CastlingRights.all, en_passant := Option.none,
    halfmove_clock := 0, fullmove_number := 1 }

/-- Board with only a White pawn on d4 (square 27). -/
def board_pawn_d4 : Board :=
  ⟨empty64.set 27 (Piece.new .Pawn .White).value, by simp [empty64]⟩

/-- Board with the White king on e1 (4) and the Black king on e8 (60). -/
def board_kings_only : Board :=
  ⟨(empty64.set 4 (Piece.new .King .White).value).set 60
     (Piece.new .King .Black).value, by simp [empty64]⟩

/-- State for the kings-only board: White to move, full castling rights. -/
def state_kings_only : State :=
  { board := board_kings_only, to_move := .White,
    castling_rights := CastlingRights.all, en_passant := Option.none,
    halfmove_clock := 0, fullmove_number := 1 }

/-- Board with the White king on a1 (0), a White knight on d4 (27), and the
Black king on c6 (42) — the Black king is attackable by the knight. -/
def board_king_en_prise : Board :=
  ⟨((empty64.set 0 (Piece.new .King .White).value).set 27
      (Piece.new .Knight .White).value).set 42 (Piece.new .King .Black).value,
   by simp [empty64]⟩

/-- State for `board_king_en_prise`, White to move. -/
def state_king_en_prise : State :=
  { board := board_king_en_prise, to_move := .White,
    castling_rights := CastlingRights.none, en_passant := Option.none,
    halfmove_clock := 0, fullmove_number := 1 }

/-- Board with the White king on a1 (0), a White knight on d4 (27), and the
Black king on h8 (63) — no king is attacked. -/
def board_kings_safe : Board :=
  ⟨((empty64.set 0 (Piece.new .King .White).value).set 27
      (Piece.new .Knight .White).value).set 63 (Piece.new .King .Black).value,
   by simp [empty64]⟩

/-- State for `board_kings_safe`, White to move. -/
def state_kings_safe : State :=
  { board := board_kings_safe, to_move := .White,
    castling_rights := CastlingRights.none, en_passant := Option.none,
    halfmove_clock := 0, fullmove_number := 1 }

/-- The state after the knight move d4-e6 from `state_kings_safe`. -/
def state_kings_safe_after : State :=
  (state_kings_safe.apply_move (Move.new ⟨27⟩ ⟨44⟩)).getD state_kings_safe

/-- Board with a White pawn on e2 (12) only. -/
def board_pawn_e2 : Board :=
  ⟨empty64.set 12 (Piece.new .Pawn .White).value, by simp [empty64]⟩

/-- State for `board_pawn_e2` with only White's kingside right held. -/
def state_pawn_e2 : State :=
  { board := board_pawn_e2, to_move := .White, castling_rights := ⟨1⟩,
    en_passant := Option.none, halfmove_clock := 0, fullmove_number := 1 }

/-- Scenario C board: White pawn on d5 (35), Black pawn on e5 (36), right
after Black's double push e7-e5. -/
def board_scenario_c : Board :=
  ⟨(empty64.set 35 (Piece.new .Pawn .White).value).set 36
     (Piece.new .Pawn .Black).value, by simp [empty64]⟩

/-- Scenario C state: White to move, en-passant target e6 (44). -/
def state_scenario_c : State :=
  { board := board_scenario_c, to_move := .White,
    castling_rights := CastlingRights.none, en_passant := some ⟨44⟩,
    halfmove_clock := 0, fullmove_number := 2 }

-- ============================================================================
-- Helper lemmas
-- ============================================================================

/-- A square's rank is its value divided by 8. -/
theorem Square.rank_eq_div (s : Square) : s.rank = s.value / 8 := by
  show s.value >>> 3 = s.value / 8
  rw [Nat.shiftRight_eq_div_pow]

/-- A square's file is its value modulo 8. -/
theorem Square.file_eq_mod (s : Square) : s.file = s.value % 8 := by
  show s.value &&& 7 = s.value % 8
  have h : s.value &&& (2 ^ 3 - 1) = s.value % 2 ^ 3 :=
    Nat.and_pow_two_sub_one_eq_mod s.value 3
  simpa using h

/-- `from_coords` on in-range coordinates: value, rank and file. -/
theorem Square.from_coords_spec :
    ∀ r, r < 8 → ∀ f, f < 8 →
      (Square.from_coords r f).value = 8 * r + f ∧
      (Square.from_coords r f).rank = r ∧ (Square.from_coords r f).file = f := by
  decide

/-- `wrapI8` is the identity on the `i8` range. -/
theorem wrapI8_eq_self (x : Int) (h1 : -128 ≤ x) (h2 : x ≤ 127) : wrapI8 x = x := by
  unfold wrapI8
  rw [Int.emod_eq_of_lt (by omega) (by omega)]
  omega

/-- `wrapI8` wraps a positive overflow down by 256. -/
theorem wrapI8_eq_sub (x : Int) (h1 : 127 < x) (h2 : x ≤ 383) :
    wrapI8 x = x - 256 := by
  unfold wrapI8
  have h3 : x + 128 = (x - 128) + 256 * 1 := by ring
  rw [h3, Int.add_mul_emod_self_left, Int.emod_eq_of_lt (by omega) (by omega)]
  omega

/-- Full characterisation of `Square::offset` for an in-range square and `i8`
offsets: the result is `some` exactly on in-board mathematical sums, and the
resulting square has those sums as coordinates. -/
theorem Square.offset_spec (s : Square) (dr df : Int) (hs : s.value < 64)
    (h1 : -128 ≤ dr) (h2 : dr ≤ 127) (h3 : -128 ≤ df) (h4 : df ≤ 127) :
    s.offset dr df =
      (if 0 ≤ (s.rank : Int) + dr ∧ (s.rank : Int) + dr < 8 ∧
          0 ≤ (s.file : Int) + df ∧ (s.file : Int) + df < 8
       then some (Square.from_coords ((s.rank : Int) + dr).toNat
                    ((s.file : Int) + df).toNat)
       else Option.none) := by
  have hr : s.rank < 8 := by rw [Square.rank_eq_div]; omega
  have hf : s.file < 8 := by rw [Square.file_eq_mod]; omega
  have hrZ : (0 : Int) ≤ (s.rank : Int) := Int.natCast_nonneg _
  have hfZ : (0 : Int) ≤ (s.file : Int) := Int.natCast_nonneg _
  have hrZ8 : (s.rank : Int) < 8 := by exact_mod_cast hr
  have hfZ8 : (s.file : Int) < 8 := by exact_mod_cast hf
  unfold Square.offset
  by_cases hcond : 0 ≤ (s.rank : Int) + dr ∧ (s.rank : Int) + dr < 8 ∧
      0 ≤ (s.file : Int) + df ∧ (s.file : Int) + df < 8
  · have hwr : wrapI8 ((s.rank : Int) + dr) = (s.rank : Int) + dr :=
      wrapI8_eq_self _ (by omega) (by omega)
    have hwf : wrapI8 ((s.file : Int) + df) = (s.file : Int) + df :=
      wrapI8_eq_self _ (by omega) (by omega)
    simp only [Square.offset, hwr, hwf, Square.in_bounds, decide_eq_true_eq]
  · rw [if_neg hcond]
    have hfalse : Square.in_bounds (wrapI8 ((s.rank : Int) + dr))
        (wrapI8 ((s.file : Int) + df)) = false := by
      rcases Int.lt_or_le 127 ((s.rank : Int) + dr) with hbig | hsmall
      · have hw : wrapI8 ((s.rank : Int) + dr) = (s.rank : Int) + dr - 256 :=
          wrapI8_eq_sub _ hbig (by omega)
        simp only [Square.in_bounds, hw, decide_eq_false_iff_not]
        omega
      · have hw : wrapI8 ((s.rank : Int) + dr) = (s.rank : Int) + dr :=
          wrapI8_eq_self _ (by omega) hsmall
        rcases Int.lt_or_le 127 ((s.file : Int) + df) with fbig | fsmall
        · have hwf : wrapI8 ((s.file : Int) + df) = (s.file : Int) + df - 256 :=
            wrapI8_eq_sub _ fbig (by omega)
          simp only [Square.in_bounds, hw, hwf, decide_eq_false_iff_not]
          omega
        · have hwf : wrapI8 ((s.file : Int) + df) = (s.file : Int) + df :=
            wrapI8_eq_self _ (by omega) fsmall
          simp only [Square.in_bounds, hw, hwf, decide_eq_false_iff_not]
          omega
    simp [hfalse]

/-- Masking with any mask disjoint from `MOVED_BIT` ignores `with_moved`. -/
theorem Piece.with_moved_and (p : Piece) (m : Nat) (hm : 64 &&& m = 0) :
    p.with_moved.value &&& m = p.value &&& m := by
  show (p.value ||| 64) &&& m = p.value &&& m
  rw [Nat.and_distrib_right, hm, Nat.or_zero]

/-- `with_moved` preserves the piece kind. -/
theorem Piece.with_moved_piece_type (p : Piece) :
    p.with_moved.piece_type = p.piece_type := by
  unfold Piece.piece_type
  rw [Piece.with_moved_and p Piece.PIECE_MASK (by decide)]

/-- `with_moved` preserves the color. -/
theorem Piece.with_moved_color (p : Piece) : p.with_moved.color = p.color := by
  unfold Piece.color
  rw [Piece.with_moved_and p Piece.COLOR_BIT (by decide)]

/-- `with_moved` preserves the occupied bit. -/
theorem Piece.with_moved_occupied (p : Piece) :
    p.with_moved.value &&& Piece.OCCUPIED_BIT = p.value &&& Piece.OCCUPIED_BIT :=
  Piece.with_moved_and p Piece.OCCUPIED_BIT (by decide)

/-- `with_moved` sets the moved flag. -/
theorem Piece.with_moved_has_moved (p : Piece) : p.with_moved.has_moved = true := by
  show decide ((p.value ||| 64) &&& 64 ≠ 0) = true
  rw [decide_eq_true_eq]
  intro h
  have h6 : ((p.value ||| 64) &&& 64).testBit 6 = true := by
    rw [Nat.testBit_and, Nat.testBit_or]
    have h64 : Nat.testBit 64 6 = true := by decide
    rw [h64, Bool.or_true, Bool.and_true]
  rw [h] at h6
  exact absurd h6 (by decide)

/-- Unpacking a successful `Piece::from_value`. -/
theorem Piece.from_value_eq_some {v : Nat} {p : Piece}
    (h : Piece.from_value v = some p) :
    p.value = v ∧ v &&& Piece.OCCUPIED_BIT ≠ 0 := by
  unfold Piece.from_value at h
  split at h
  · exact absurd h (by simp)
  · rename_i hne
    refine ⟨by cases h; rfl, ?_⟩
    simpa [Piece.is_empty_value] using hne

/-- Unpacking a failed `Piece::from_value`. -/
theorem Piece.from_value_eq_none {v : Nat}
    (h : Piece.from_value v = Option.none) : v &&& Piece.OCCUPIED_BIT = 0 := by
  unfold Piece.from_value at h
  split at h
  · rename_i he
    simpa [Piece.is_empty_value] using he
  · exact absurd h (by simp)

/-- Reading back the byte just written. -/
theorem Board.get_write_self (b : Board) (s : Square) (v : Nat)
    (h : s.value < 64) : (b.write s v).get s = v := by
  unfold Board.get Board.write Square.index
  rw [List.getD_eq_getElem?_getD,
    List.getElem?_set_self (by rw [b.length_eq]; exact h)]
  rfl

/-- Reading a byte at a different index is unaffected by a write. -/
theorem Board.get_write_ne (b : Board) (s : Square) (v : Nat) (t : Square)
    (h : t.value ≠ s.value) : (b.write s v).get t = b.get t := by
  unfold Board.get Board.write Square.index
  rw [List.getD_eq_getElem?_getD, List.getD_eq_getElem?_getD,
    List.getElem?_set_ne (fun he => h he.symm)]

/-- `countP` is unchanged by overwriting a non-counted entry with a
non-counted value. -/
theorem countP_set_eq (p : Nat → Bool) :
    ∀ (l : List Nat) (n : Nat) (a : Nat), p a = false →
      (∀ b, l[n]? = some b → p b = false) →
      (l.set n a).countP p = l.countP p := by
  intro l
  induction l with
  | nil => intro n a _ _; rfl
  | cons x xs ih =>
    intro n a ha hb
    cases n with
    | zero =>
      have hx : p x = false := hb x (by simp)
      simp [List.set, List.countP_cons, ha, hx]
    | succ n =>
      have hrec := ih n a ha (fun b h => hb b (by simpa using h))
      simp [List.set, List.countP_cons, hrec]

/-- Conjoining an extra mask preserves a zero conjunction. -/
theorem and_mask_zero (v m q : Nat) (h : v &&& q = 0) : (v &&& m) &&& q = 0 := by
  rw [Nat.and_assoc, Nat.and_comm m q, ← Nat.and_assoc, h, Nat.zero_and]

/-- `lose` never turns an absent castling right into a present one. -/
theorem CastlingRights.has_lose_false (r : CastlingRights) (c c2 : Color)
    (s s2 : CastlingSide) (h : r.has c s = false) :
    (r.lose c2 s2).has c s = false := by
  unfold CastlingRights.has at h ⊢
  rw [decide_eq_false_iff_not, not_not] at h ⊢
  exact and_mask_zero _ _ _ h

/-- `lose_all` never turns an absent castling right into a present one. -/
theorem CastlingRights.has_lose_all_false (r : CastlingRights) (c c2 : Color)
    (s : CastlingSide) (h : r.has c s = false) :
    (r.lose_all c2).has c s = false :=
  CastlingRights.has_lose_false _ _ _ _ _
    (CastlingRights.has_lose_false _ _ _ _ _ h)

/-- Shifting right distributes over bitwise or. -/
theorem lor_shiftRight (a b k : Nat) :
    (a ||| b) >>> k = (a >>> k) ||| (b >>> k) := by
  apply Nat.eq_of_testBit_eq
  intro i
  simp [Nat.testBit_shiftRight, Nat.testBit_lor]

/-- Masking with 63 is reduction modulo 64. -/
theorem and_63_eq_mod (x : Nat) : x &&& 63 = x % 64 := by
  have h := Nat.and_pow_two_sub_one_eq_mod x 6
  simpa using h

/-- The source-square bits of a packed move value. -/
theorem move_source_bits (v w e : Nat) (hv : v < 64)
    (he : e &&& 63 = 0) : (v ||| (w <<< 6) ||| e) &&& 63 = v := by
  have hw64 : w <<< 6 = w * 64 := by
    rw [Nat.shiftLeft_eq]
  rw [Nat.and_distrib_right, Nat.and_distrib_right, he, Nat.or_zero,
    and_63_eq_mod, and_63_eq_mod, hw64, Nat.mod_eq_of_lt hv,
    Nat.mul_mod_left, Nat.or_zero]

/-- The target-square bits of a packed move value. -/
theorem move_target_bits (v w e : Nat) (hv : v < 64) (hw : w < 64)
    (he : (e >>> 6) &&& 63 = 0) :
    ((v ||| (w <<< 6) ||| e) >>> 6) &&& 63 = w := by
  have hw64 : w <<< 6 = w * 64 := by
    rw [Nat.shiftLeft_eq]
  have h1 : v >>> 6 = 0 := by
    rw [Nat.shiftRight_eq_div_pow]
    exact Nat.div_eq_of_lt (by simpa using hv)
  have h2 : (w <<< 6) >>> 6 = w := by
    rw [hw64, Nat.shiftRight_eq_div_pow]
    show w * 64 / 64 = w
    exact Nat.mul_div_cancel w (by norm_num)
  rw [lor_shiftRight, lor_shiftRight, h1, h2, Nat.zero_or,
    Nat.and_distrib_right, he, Nat.or_zero, and_63_eq_mod,
    Nat.mod_eq_of_lt hw]

/-- The high bits of a packed move value, for shifts of at least 12. -/
theorem move_high_bits (v w e k : Nat) (hv : v < 64) (hw : w < 64)
    (hk : 12 ≤ k) : (v ||| (w <<< 6) ||| e) >>> k = e >>> k := by
  have hw64 : w <<< 6 = w * 64 := by
    rw [Nat.shiftLeft_eq]
  have hk2 : 4096 ≤ 2 ^ k := by
    calc (4096 : Nat) = 2 ^ 12 := by norm_num
    _ ≤ 2 ^ k := Nat.pow_le_pow_right (by norm_num) hk
  have h1 : v >>> k = 0 := by
    rw [Nat.shiftRight_eq_div_pow]
    exact Nat.div_eq_of_lt (by omega)
  have h2 : (w <<< 6) >>> k = 0 := by
    rw [hw64, Nat.shiftRight_eq_div_pow]
    exact Nat.div_eq_of_lt (by omega)
  rw [lor_shiftRight, lor_shiftRight, h1, h2, Nat.zero_or, Nat.zero_or]

/-- Decoding an arbitrary packed move `v ||| (w <<< 6) ||| e` built from
in-range square values `v`, `w` and flag bits `e` clear below bit 12. -/
theorem move_decode_all (v w e : Nat) (hv : v < 64) (hw : w < 64)
    (he1 : e &&& 63 = 0) (he2 : (e >>> 6) &&& 63 = 0) :
    (Move.mk (v ||| (w <<< 6) ||| e)).source = ⟨v⟩ ∧
    (Move.mk (v ||| (w <<< 6) ||| e)).target = ⟨w⟩ ∧
    (Move.mk (v ||| (w <<< 6) ||| e)).move_type =
      MoveType.from_u8 ((e >>> 14) &&& 3) ∧
    ((Move.mk (v ||| (w <<< 6) ||| e)).value >>> 12) &&& 3 =
      (e >>> 12) &&& 3 := by
  refine ⟨?_, ?_, ?_, ?_⟩
  · show Square.from_index ((v ||| (w <<< 6) ||| e) &&& 63) = _
    rw [move_source_bits v w e hv he1]
    rfl
  · show Square.from_index (((v ||| (w <<< 6) ||| e) >>> 6) &&& 63) = _
    rw [move_target_bits v w e hv hw he2]
    rfl
  · show MoveType.from_u8 (((v ||| (w <<< 6) ||| e) >>> 14) &&& 3) = _
    rw [move_high_bits v w e 14 hv hw (by norm_num)]
  · show ((v ||| (w <<< 6) ||| e) >>> 12) &&& 3 = _
    rw [move_high_bits v w e 12 hv hw (by norm_num)]

/-- A `Move::new` value in `move_decode_all` form. -/
theorem Move.new_eq_packed (s t : Square) :
    Move.new s t = Move.mk (s.value ||| (t.value <<< 6) ||| 0) := by
  unfold Move.new
  rw [Nat.or_zero]

/-- Decoding a `Move::new` built from in-range squares. -/
theorem Move.new_decode_sq (s t : Square) (hs : s.value < 64)
    (ht : t.value < 64) :
    (Move.new s t).source = s ∧ (Move.new s t).target = t ∧
    (Move.new s t).move_type = some MoveType.Normal := by
  obtain ⟨h1, h2, h3, _⟩ :=
    move_decode_all s.value t.value 0 hs ht (by decide) (by decide)
  rw [Move.new_eq_packed]
  exact ⟨h1, h2, h3⟩

/-- A `Move::promotion` value in `move_decode_all` form. -/
theorem Move.promotion_eq_packed (s t : Square) (k : PieceType) :
    Move.promotion s t k = Move.mk (s.value ||| (t.value <<< 6) |||
      ((PieceType.toU8 k <<< 12) ||| (MoveType.toU8 MoveType.Promotion <<< 14))) := by
  unfold Move.promotion
  rw [Nat.lor_assoc]

/-- Decoding a `Move::promotion`, given the concrete flag-bit computations. -/
theorem Move.promotion_decode (s t : Square) (k : PieceType)
    (hs : s.value < 64) (ht : t.value < 64)
    (he1 : ((PieceType.toU8 k <<< 12) |||
      (MoveType.toU8 MoveType.Promotion <<< 14)) &&& 63 = 0)
    (he2 : (((PieceType.toU8 k <<< 12) |||
      (MoveType.toU8 MoveType.Promotion <<< 14)) >>> 6) &&& 63 = 0)
    (he3 : MoveType.from_u8 ((((PieceType.toU8 k <<< 12) |||
      (MoveType.toU8 MoveType.Promotion <<< 14)) >>> 14) &&& 3) =
      some MoveType.Promotion)
    (he4 : PieceType.from_u8 ((((PieceType.toU8 k <<< 12) |||
      (MoveType.toU8 MoveType.Promotion <<< 14)) >>> 12) &&& 3) = some k) :
    (Move.promotion s t k).source = s ∧ (Move.promotion s t k).target = t ∧
    (Move.promotion s t k).move_type = some MoveType.Promotion ∧
    (Move.promotion s t k).promotion_piece = some k := by
  obtain ⟨v⟩ := s
  obtain ⟨w⟩ := t
  have hv : v < 64 := hs
  have hw : w < 64 := ht
  rw [Move.promotion_eq_packed]
  have hall := move_decode_all v w ((PieceType.toU8 k <<< 12) |||
    (MoveType.toU8 MoveType.Promotion <<< 14)) hv hw he1 he2
  refine ⟨hall.1, hall.2.1, ?_, ?_⟩
  · rw [hall.2.2.1]
    exact he3
  · have h5 : (Move.mk (v ||| (w <<< 6) ||| ((PieceType.toU8 k <<< 12) |||
        (MoveType.toU8 MoveType.Promotion <<< 14)))).move_type =
        some MoveType.Promotion := by
      rw [hall.2.2.1]
      exact he3
    unfold Move.promotion_piece
    rw [h5]
    show PieceType.from_u8 (((v ||| (w <<< 6) ||| ((PieceType.toU8 k <<< 12) |||
      (MoveType.toU8 MoveType.Promotion <<< 14))) >>> 12) &&& 3) = some k
    rw [hall.2.2.2]
    exact he4

/-- Decoding a `Move::en_passant` built from in-range squares. -/
theorem Move.en_passant_decode (s t : Square) (hs : s.value < 64)
    (ht : t.value < 64) :
    (Move.en_passant s t).source = s ∧ (Move.en_passant s t).target = t ∧
    (Move.en_passant s t).move_type = some MoveType.EnPassant ∧
    (Move.en_passant s t).promotion_piece = Option.none := by
  obtain ⟨v⟩ := s
  obtain ⟨w⟩ := t
  have hv : v < 64 := hs
  have hw : w < 64 := ht
  have hall := move_decode_all v w (MoveType.toU8 MoveType.EnPassant <<< 14)
    hv hw (by decide) (by decide)
  have h3 : (Move.en_passant ⟨v⟩ ⟨w⟩).move_type = some MoveType.EnPassant :=
    hall.2.2.1
  refine ⟨hall.1, hall.2.1, h3, ?_⟩
  unfold Move.promotion_piece
  rw [h3]

/-- Decoding a `Move::castling` built from in-range squares. -/
theorem Move.castling_decode (s t : Square) (hs : s.value < 64)
    (ht : t.value < 64) :
    (Move.castling s t).source = s ∧ (Move.castling s t).target = t ∧
    (Move.castling s t).move_type = some MoveType.Castling ∧
    (Move.castling s t).promotion_piece = Option.none := by
  obtain ⟨v⟩ := s
  obtain ⟨w⟩ := t
  have hv : v < 64 := hs
  have hw : w < 64 := ht
  have hall := move_decode_all v w (MoveType.toU8 MoveType.Castling <<< 14)
    hv hw (by decide) (by decide)
  have h3 : (Move.castling ⟨v⟩ ⟨w⟩).move_type = some MoveType.Castling :=
    hall.2.2.1
  refine ⟨hall.1, hall.2.1, h3, ?_⟩
  unfold Move.promotion_piece
  rw [h3]

/-- Membership in `Board::pieces`. -/
theorem Board.mem_pieces {b : Board} {sp : Square × Piece} :
    sp ∈ b.pieces ↔ sp.1.value < 64 ∧ b.piece_at sp.1 = some sp.2 := by
  unfold Board.pieces
  rw [List.mem_filterMap]
  constructor
  · rintro ⟨i, hi, hmap⟩
    rw [List.mem_range] at hi
    cases hpa : b.piece_at (Square.from_index i) with
    | none => rw [hpa] at hmap; exact absurd hmap (by simp)
    | some p =>
      rw [hpa] at hmap
      simp only [Option.map_some', Option.some_inj] at hmap
      rw [← hmap]
      exact ⟨hi, hpa⟩
  · rintro ⟨h1, h2⟩
    refine ⟨sp.1.value, List.mem_range.mpr h1, ?_⟩
    have hsq : Square.from_index sp.1.value = sp.1 := rfl
    rw [hsq, h2]
    rfl

/-- Squares with equal values are equal. -/
theorem Square.eq_of_value_eq {a b : Square} (h : a.value = b.value) : a = b := by
  cases a
  cases b
  cases h
  rfl

/-- Castling-rights of a successful `apply_normal` are those of the input. -/
theorem State.apply_normal_rights {s : State} {mv : Move} {s2 : State}
    (h : s.apply_normal mv = some s2) :
    s2.castling_rights = s.castling_rights := by
  unfold State.apply_normal at h
  split at h
  · exact absurd h (by simp)
  · cases h; rfl

/-- A color differing from `b` is `b.not`. -/
theorem Color.ne_iff_not {a b : Color} (h : a ≠ b) : a = b.not := by
  cases a <;> cases b
  · exact absurd rfl h
  · rfl
  · rfl
  · exact absurd rfl h

/-- The board of a successful `apply_normal` is the `move_piece` result. -/
theorem State.apply_normal_board {s : State} {mv : Move} {s2 : State}
    (h : s.apply_normal mv = some s2) :
    s2.board = (s.board.move_piece mv.source mv.target).1 := by
  unfold State.apply_normal at h
  split at h
  · exact absurd h (by simp)
  · cases h; rfl

/-- Castling-rights of a successful `apply_promotion` are those of the input. -/
theorem State.apply_promotion_rights {s : State} {mv : Move} {s2 : State}
    (h : s.apply_promotion mv = some s2) :
    s2.castling_rights = s.castling_rights := by
  unfold State.apply_promotion at h
  split at h
  · exact absurd h (by simp)
  · cases h; rfl

-- ============================================================================
-- Claim theorems
-- ============================================================================

/-- Claim C1 (code-bug evidence): on a board whose only piece is a White pawn
on d4 (square 27), the square e5 (36) is one of the pawn's two
diagonal-forward squares, so the claimed oracle contract requires
`is_square_attacked(board, e5, White) = true`; the source implements only the
knight check (sliders, pawns and kings are TODO comments) and returns
false. -/
theorem C1_attack_oracle_incomplete :
    board_pawn_d4.piece_at ⟨27⟩ = some (Piece.new .Pawn .White) ∧
    (⟨27⟩ : Square).forward .White 1 .Right = some ⟨36⟩ ∧
    is_square_attacked board_pawn_d4 ⟨36⟩ .White = false := by
  decide

/-- Claim C2 (code-bug evidence): applying the Normal king move e1-e2 to a
state holding full castling rights leaves the rights untouched (`apply_normal`
has `castling_rights: self.castling_rights // TODO: update`), although the
claim requires White to lose all rights on a king move. -/
theorem C2_castling_rights_not_updated :
    board_kings_only.piece_at ⟨4⟩ = some (Piece.new .King .White) ∧
    (state_kings_only.apply_move (Move.new ⟨4⟩ ⟨12⟩)).map
      (fun st => st.castling_rights) = some CastlingRights.all := by
  decide

/-- Claim C3 (code-bug evidence): on the standard initial position the
generator yields 4 moves (the knight moves only), not the 20 the claim
states, because `pawn_moves` is an unimplemented TODO in the source. -/
theorem C3_initial_position_move_count :
    (MoveGenerator.all initial_state).length = 4 := by
  decide

/-- Claim C4 (counterexample): a state with exactly one king per color in
which the Black king stands on a knight-attacked square.  The generator
yields the knight move d4xc6 as legal, and applying it leaves zero Black
kings on the board, refuting the claim as stated. -/
theorem C4_king_capture_counterexample :
    count_kings state_king_en_prise.board .White = 1 ∧
    count_kings state_king_en_prise.board .Black = 1 ∧
    Move.new ⟨27⟩ ⟨42⟩ ∈ MoveGenerator.all state_king_en_prise ∧
    (state_king_en_prise.apply_move (Move.new ⟨27⟩ ⟨42⟩)).map
      (fun st => count_kings st.board .Black) = some 0 := by
  decide

/-- Claim C4 (amended): in a state with exactly one king per color in which
the opposing king's square is not attacked (per `is_square_attacked`) by the
side to move, every move yielded by the legal-move generator preserves
exactly one king of each color after `apply_move`. -/
theorem C4_no_king_capture_amended (s : State) (mv : Move) (s2 : State)
    (hW : count_kings s.board .White = 1) (hB : count_kings s.board .Black = 1)
    (hsafe : ∀ sq : Square, sq.value < 64 →
      is_king_value s.to_move.not (s.board.get sq) = true →
      is_square_attacked s.board sq s.to_move = false)
    (hmem : mv ∈ MoveGenerator.all s) (happly : s.apply_move mv = some s2) :
    count_kings s2.board .White = 1 ∧ count_kings s2.board .Black = 1 := by
  have hpl : mv ∈ pseudo_legal_moves s := (List.mem_filter.mp hmem).1
  unfold pseudo_legal_moves at hpl
  rw [List.mem_flatMap] at hpl
  obtain ⟨sp, hsp, hmv⟩ := hpl
  rw [Board.mem_pieces] at hsp
  obtain ⟨hsplt, hspat⟩ := hsp
  by_cases hcol : sp.2.color = s.to_move
  case neg =>
    rw [if_neg hcol] at hmv
    exact absurd hmv (List.not_mem_nil _)
  rw [if_pos hcol] at hmv
  cases hty : sp.2.piece_type with
  | none =>
    rw [hty] at hmv
    exact absurd hmv (List.not_mem_nil _)
  | some pt =>
    rw [hty] at hmv
    cases pt with
    | Pawn => exact absurd hmv (List.not_mem_nil _)
    | Bishop => exact absurd hmv (List.not_mem_nil _)
    | Rook => exact absurd hmv (List.not_mem_nil _)
    | Queen => exact absurd hmv (List.not_mem_nil _)
    | King => exact absurd hmv (List.not_mem_nil _)
    | Knight =>
      unfold knight_moves at hmv
      rw [List.mem_filterMap] at hmv
      obtain ⟨d, hd, hbind⟩ := hmv
      rw [Option.bind_eq_some] at hbind
      obtain ⟨to_sq, hoff, hmatch⟩ := hbind
      obtain ⟨hd1, hd2, hd3, hd4, hdneg, hdnz⟩ :=
        (by decide : ∀ x ∈ KNIGHT_OFFSETS, -2 ≤ x.1 ∧ x.1 ≤ 2 ∧ -2 ≤ x.2 ∧
          x.2 ≤ 2 ∧ (-x.1, -x.2) ∈ KNIGHT_OFFSETS ∧ ¬(x.1 = 0 ∧ x.2 = 0)) d hd
      rw [Square.offset_spec sp.1 d.1 d.2 hsplt (by omega) (by omega) (by omega)
        (by omega)] at hoff
      by_cases hcond : 0 ≤ (sp.1.rank : Int) + d.1 ∧
          (sp.1.rank : Int) + d.1 < 8 ∧ 0 ≤ (sp.1.file : Int) + d.2 ∧
          (sp.1.file : Int) + d.2 < 8
      case neg =>
        rw [if_neg hcond] at hoff
        exact absurd hoff (by simp)
      rw [if_pos hcond, Option.some_inj] at hoff
      obtain ⟨hc1, hc2, hc3, hc4⟩ := hcond
      have hanb : ((sp.1.rank : Int) + d.1).toNat < 8 := by omega
      have hbnb : ((sp.1.file : Int) + d.2).toNat < 8 := by omega
      obtain ⟨htv, htr, htf2⟩ := Square.from_coords_spec _ hanb _ hbnb
      rw [hoff] at htv htr htf2
      have htolt : to_sq.value < 64 := by rw [htv]; omega
      have hsprank8 : sp.1.rank < 8 := by rw [Square.rank_eq_div]; omega
      have hspfile8 : sp.1.file < 8 := by rw [Square.file_eq_mod]; omega
      have hspval : sp.1.value = 8 * sp.1.rank + sp.1.file := by
        rw [Square.rank_eq_div, Square.file_eq_mod]
        omega
      have hoffback : to_sq.offset (-d.1) (-d.2) = some sp.1 := by
        rw [Square.offset_spec to_sq (-d.1) (-d.2) htolt (by omega) (by omega)
          (by omega) (by omega)]
        have hr1 : (to_sq.rank : Int) + -d.1 = (sp.1.rank : Int) := by
          rw [htr]
          omega
        have hr2 : (to_sq.file : Int) + -d.2 = (sp.1.file : Int) := by
          rw [htf2]
          omega
        rw [hr1, hr2]
        have hcback : 0 ≤ (sp.1.rank : Int) ∧ (sp.1.rank : Int) < 8 ∧
            0 ≤ (sp.1.file : Int) ∧ (sp.1.file : Int) < 8 := by omega
        rw [if_pos hcback, Option.some_inj]
        apply Square.eq_of_value_eq
        simp only [Int.toNat_natCast]
        obtain ⟨hv2, _, _⟩ :=
          Square.from_coords_spec sp.1.rank hsprank8 sp.1.file hspfile8
        rw [hv2, ← hspval]
      suffices hkey : mv = Move.new sp.1 to_sq ∧
          ∀ c, is_king_value c (s.board.get to_sq) = false by
        obtain ⟨hmveq, hnk⟩ := hkey
        obtain ⟨hmsrc, hmtgt, hmtype⟩ := Move.new_decode_sq sp.1 to_sq hsplt htolt
        have hdisp : s.apply_move mv = s.apply_normal mv := by
          unfold State.apply_move
          rw [show mv.move_type = some MoveType.Normal from hmveq ▸ hmtype]
        have hnormal : s.apply_normal mv = some s2 := by
          rw [← hdisp]
          exact happly
        have hb2 : s2.board = (s.board.move_piece mv.source mv.target).1 :=
          State.apply_normal_board hnormal
        rw [hmveq, hmsrc, hmtgt] at hb2
        have hsp2v : Piece.from_value (s.board.get sp.1) = some sp.2 := hspat
        obtain ⟨hpval, hpocc⟩ := Piece.from_value_eq_some hsp2v
        have hb3 : s2.board =
            (s.board.write sp.1 0).write to_sq sp.2.with_moved.value := by
          rw [hb2]
          simp only [Board.move_piece, Board.remove_piece, hsp2v, Board.set_piece]
        have hcount : ∀ c, count_kings s2.board c = count_kings s.board c := by
          intro c
          rw [hb3]
          show ((s.board.squares.set sp.1.value 0).set to_sq.value
            sp.2.with_moved.value).countP (is_king_value c) =
            s.board.squares.countP (is_king_value c)
          have hw_false : is_king_value c sp.2.with_moved.value = false := by
            have hempty_false :
                Piece.is_empty_value sp.2.with_moved.value = false := by
              unfold Piece.is_empty_value
              rw [decide_eq_false_iff_not, Piece.with_moved_occupied, hpval]
              exact hpocc
            have hft : Piece.from_value sp.2.with_moved.value =
                some sp.2.with_moved := by
              simp [Piece.from_value, hempty_false]
            unfold is_king_value
            simp only [hft]
            rw [Piece.with_moved_piece_type, hty]
            simp
          have h0_false : is_king_value c 0 = false := rfl
          have hsrc_false : is_king_value c (s.board.get sp.1) = false := by
            unfold is_king_value
            rw [hsp2v]
            simp [hty]
          rw [countP_set_eq (is_king_value c) _ to_sq.value
              sp.2.with_moved.value hw_false ?houter,
            countP_set_eq (is_king_value c) _ sp.1.value 0 h0_false ?hinner]
          case houter =>
            intro bval hbv
            by_cases hsame : to_sq.value = sp.1.value
            · rw [hsame, List.getElem?_set_self
                (by rw [s.board.length_eq]; exact hsplt)] at hbv
              rw [Option.some_inj] at hbv
              rw [← hbv]
              exact h0_false
            · rw [List.getElem?_set_ne (fun he => hsame he.symm)] at hbv
              have hsome : s.board.squares[to_sq.value]? =
                  some (s.board.get to_sq) := by
                unfold Board.get Square.index
                rw [List.getD_eq_getElem?_getD,
                  List.getElem?_eq_getElem (by rw [s.board.length_eq]; exact htolt)]
                rfl
              rw [hsome, Option.some_inj] at hbv
              rw [← hbv]
              exact hnk c
          case hinner =>
            intro bval hbv
            have hsome : s.board.squares[sp.1.value]? =
                some (s.board.get sp.1) := by
              unfold Board.get Square.index
              rw [List.getD_eq_getElem?_getD,
                List.getElem?_eq_getElem (by rw [s.board.length_eq]; exact hsplt)]
              rfl
            rw [hsome, Option.some_inj] at hbv
            rw [← hbv]
            exact hsrc_false
        exact ⟨(hcount .White).trans hW, (hcount .Black).trans hB⟩
      cases hpa : s.board.piece_at to_sq with
      | none =>
        rw [hpa] at hmatch
        injection hmatch with hmveq2
        refine ⟨hmveq2.symm, ?_⟩
        intro c
        have hpn : Piece.from_value (s.board.get to_sq) = Option.none := hpa
        unfold is_king_value
        rw [hpn]
      | some tgt =>
        simp only [hpa] at hmatch
        by_cases htc : tgt.color ≠ s.to_move
        case neg =>
          rw [if_neg htc] at hmatch
          exact absurd hmatch (by simp)
        rw [if_pos htc] at hmatch
        injection hmatch with hmveq2
        have htgt_not_king : tgt.piece_type ≠ some PieceType.King := by
          intro hk
          have htcol : tgt.color = s.to_move.not := Color.ne_iff_not htc
          have hkv : is_king_value s.to_move.not (s.board.get to_sq) = true := by
            unfold is_king_value
            rw [show Piece.from_value (s.board.get to_sq) = some tgt from hpa]
            simp [hk, htcol]
          have hatt := hsafe to_sq htolt hkv
          have hatt2 : is_square_attacked s.board to_sq s.to_move = true := by
            unfold is_square_attacked
            rw [List.any_eq_true]
            refine ⟨(-d.1, -d.2), hdneg, ?_⟩
            simp only [hoffback, hspat, hcol, hty]
            simp
          rw [hatt2] at hatt
          simp at hatt
        refine ⟨hmveq2.symm, ?_⟩
        intro c
        have hdk : decide (tgt.piece_type = some PieceType.King) = false := by
          rw [decide_eq_false_iff_not]
          exact htgt_not_king
        unfold is_king_value
        rw [show Piece.from_value (s.board.get to_sq) = some tgt from hpa]
        simp [hdk]

/-- Witness for C4 (amended) on a kings-safe board: the knight move d4-e6 is
generated, applies, and both kings survive. -/
theorem C4_no_king_capture_amended_witness :
    count_kings state_kings_safe.board .White = 1 ∧
    count_kings state_kings_safe.board .Black = 1 ∧
    Move.new ⟨27⟩ ⟨44⟩ ∈ MoveGenerator.all state_kings_safe ∧
    (count_kings state_kings_safe_after.board .White = 1 ∧
      count_kings state_kings_safe_after.board .Black = 1) :=
  ⟨by decide, by decide, by decide,
    C4_no_king_capture_amended state_kings_safe (Move.new ⟨27⟩ ⟨44⟩)
      state_kings_safe_after (by decide) (by decide)
      (fun sq hlt =>
        (by decide : ∀ v, v < 64 →
          is_king_value state_kings_safe.to_move.not
            (state_kings_safe.board.get ⟨v⟩) = true →
          is_square_attacked state_kings_safe.board ⟨v⟩
            state_kings_safe.to_move = false) sq.value hlt)
      (by decide) rfl⟩

/-- Claim C5: for every state and every move that applies successfully, a
castling right absent before `apply_move` is still absent afterwards, so
rights are monotonically non-increasing along any applied-move sequence. -/
theorem C5_castling_rights_monotone (s : State) (mv : Move) (s2 : State)
    (happly : s.apply_move mv = some s2) (c : Color) (side : CastlingSide)
    (h : s.castling_rights.has c side = false) :
    s2.castling_rights.has c side = false := by
  unfold State.apply_move at happly
  split at happly
  · rw [State.apply_normal_rights happly]
    exact h
  · rw [State.apply_promotion_rights happly]
    exact h
  · cases happly
    exact h
  · cases happly
    exact CastlingRights.has_lose_all_false _ _ _ _ h
  · exact absurd happly (by simp)

/-- The state after the White pawn push e2-e3 from `state_pawn_e2`. -/
def state_pawn_e2_after : State :=
  (state_pawn_e2.apply_move (Move.new ⟨12⟩ ⟨20⟩)).getD state_pawn_e2

/-- Witness for C5 at the concrete pawn push e2-e3 from a state holding only
White's kingside right. -/
theorem C5_castling_rights_monotone_witness :
    state_pawn_e2.apply_move (Move.new ⟨12⟩ ⟨20⟩) = some state_pawn_e2_after ∧
    state_pawn_e2.castling_rights.has Color.Black CastlingSide.Kingside = false ∧
    state_pawn_e2_after.castling_rights.has Color.Black CastlingSide.Kingside = false :=
  ⟨rfl, by decide,
    C5_castling_rights_monotone state_pawn_e2 (Move.new ⟨12⟩ ⟨20⟩)
      state_pawn_e2_after rfl Color.Black CastlingSide.Kingside (by decide)⟩

/-- Claim C7: every field of a move built by any of the four constructors
from in-range squares (and a promotable kind, for promotions) decodes to
exactly the constructed value, with `promotion_piece` present iff the
category is Promotion. -/
theorem C7_move_codec_roundtrip :
    ∀ (s t : Square), s.value < 64 → t.value < 64 →
      ((Move.new s t).source = s ∧ (Move.new s t).target = t ∧
        (Move.new s t).move_type = some MoveType.Normal ∧
        (Move.new s t).promotion_piece = Option.none) ∧
      (∀ k ∈ PieceType.PROMOTABLE,
        (Move.promotion s t k).source = s ∧ (Move.promotion s t k).target = t ∧
        (Move.promotion s t k).move_type = some MoveType.Promotion ∧
        (Move.promotion s t k).promotion_piece = some k) ∧
      ((Move.en_passant s t).source = s ∧ (Move.en_passant s t).target = t ∧
        (Move.en_passant s t).move_type = some MoveType.EnPassant ∧
        (Move.en_passant s t).promotion_piece = Option.none) ∧
      ((Move.castling s t).source = s ∧ (Move.castling s t).target = t ∧
        (Move.castling s t).move_type = some MoveType.Castling ∧
        (Move.castling s t).promotion_piece = Option.none) := by
  intro s t hs ht
  refine ⟨?_, ?_, ?_, ?_⟩
  · obtain ⟨h1, h2, h3⟩ := Move.new_decode_sq s t hs ht
    refine ⟨h1, h2, h3, ?_⟩
    unfold Move.promotion_piece
    rw [h3]
  · intro k hk
    have hkc := (by decide : ∀ x ∈ PieceType.PROMOTABLE,
      x = PieceType.Knight ∨ x = PieceType.Bishop ∨ x = PieceType.Rook ∨
      x = PieceType.Queen) k hk
    rcases hkc with h | h | h | h <;> subst h <;>
      exact Move.promotion_decode s t _ hs ht (by decide) (by decide)
        (by decide) (by decide)
  · exact Move.en_passant_decode s t hs ht
  · exact Move.castling_decode s t hs ht

/-- Witness for C7 at e2 (12) and e4 (28), with Queen as one promotable
kind. -/
theorem C7_move_codec_roundtrip_witness :
    (⟨12⟩ : Square).value < 64 ∧ (⟨28⟩ : Square).value < 64 ∧
    PieceType.Queen ∈ PieceType.PROMOTABLE ∧
    (Move.new ⟨12⟩ ⟨28⟩).source = ⟨12⟩ ∧
    (Move.promotion ⟨12⟩ ⟨28⟩ .Queen).promotion_piece = some PieceType.Queen :=
  ⟨by decide, by decide, by decide,
    (C7_move_codec_roundtrip ⟨12⟩ ⟨28⟩ (by decide) (by decide)).1.1,
    ((C7_move_codec_roundtrip ⟨12⟩ ⟨28⟩ (by decide) (by decide)).2.1
      PieceType.Queen (by decide)).2.2.2⟩

/-- Claim C9: moving from an empty source square returns no capture and
leaves the occupant of every square unchanged. -/
theorem C9_move_piece_empty_source (b : Board) (f t : Square)
    (hf : f.value < 64) (ht : t.value < 64)
    (hempty : b.piece_at f = Option.none) :
    (b.move_piece f t).2 = Option.none ∧
    ∀ sq : Square, (b.move_piece f t).1.piece_at sq = b.piece_at sq := by
  have hempty2 : Piece.from_value (b.get f) = Option.none := hempty
  have hmv : b.move_piece f t = (b.write f 0, Option.none) := by
    simp only [Board.move_piece, Board.remove_piece, hempty2]
  refine ⟨by rw [hmv], ?_⟩
  intro sq
  rw [hmv]
  by_cases hsq : sq.value = f.value
  · have heq : sq = f := by
      cases sq
      cases f
      simpa using hsq
    subst heq
    show Piece.from_value ((b.write sq 0).get sq) = b.piece_at sq
    rw [Board.get_write_self b sq 0 (by rw [← hsq] at hf; exact hf), hempty]
    decide
  · show Piece.from_value ((b.write f 0).get sq) = b.piece_at sq
    rw [Board.get_write_ne b f 0 sq hsq]
    rfl

/-- Witness for C9: moving from the empty a1 to the occupied e2 on
`board_pawn_e2` changes nothing and captures nothing. -/
theorem C9_move_piece_empty_source_witness :
    (⟨0⟩ : Square).value < 64 ∧ (⟨12⟩ : Square).value < 64 ∧
    board_pawn_e2.piece_at ⟨0⟩ = Option.none ∧
    (board_pawn_e2.move_piece ⟨0⟩ ⟨12⟩).2 = Option.none ∧
    (board_pawn_e2.move_piece ⟨0⟩ ⟨12⟩).1.piece_at ⟨12⟩ =
      board_pawn_e2.piece_at ⟨12⟩ :=
  ⟨by decide, by decide, by decide,
    (C9_move_piece_empty_source board_pawn_e2 ⟨0⟩ ⟨12⟩ (by decide) (by decide)
      (by decide)).1,
    (C9_move_piece_empty_source board_pawn_e2 ⟨0⟩ ⟨12⟩ (by decide) (by decide)
      (by decide)).2 ⟨12⟩⟩

/-- Claim C10: after `move_piece` from an occupied square, the piece now at
the target is the moved piece with the moved flag set, and setting that flag
changes neither kind nor color. -/
theorem C10_move_piece_sets_moved (b : Board) (f t : Square) (p : Piece)
    (ht : t.value < 64) (hp : b.piece_at f = some p) :
    (b.move_piece f t).1.piece_at t = some p.with_moved ∧
    p.with_moved.has_moved = true ∧
    p.with_moved.piece_type = p.piece_type ∧
    p.with_moved.color = p.color := by
  have hp2 : Piece.from_value (b.get f) = some p := hp
  obtain ⟨hpv, hocc⟩ := Piece.from_value_eq_some hp2
  have hmv : (b.move_piece f t).1 = (b.write f 0).write t p.with_moved.value := by
    simp only [Board.move_piece, Board.remove_piece, hp2, Board.set_piece]
  refine ⟨?_, Piece.with_moved_has_moved p, Piece.with_moved_piece_type p,
    Piece.with_moved_color p⟩
  rw [hmv]
  show Piece.from_value (((b.write f 0).write t p.with_moved.value).get t) =
    some p.with_moved
  rw [Board.get_write_self _ t _ ht]
  have hne : Piece.is_empty_value p.with_moved.value = false := by
    unfold Piece.is_empty_value
    rw [decide_eq_false_iff_not, Piece.with_moved_occupied, hpv]
    exact hocc
  simp [Piece.from_value, hne]

/-- Claim C8: for an in-range square and `i8` offsets, `Square::offset`
returns nothing exactly when the mathematical target coordinates fall outside
`[0,8) x [0,8)`, and otherwise the returned square has exactly those
coordinates — never a wrapped value. -/
theorem C8_offset_bounds (s : Square) (dr df : Int) (hs : s.value < 64)
    (h1 : -128 ≤ dr) (h2 : dr ≤ 127) (h3 : -128 ≤ df) (h4 : df ≤ 127) :
    (s.offset dr df = Option.none ↔
      ¬(0 ≤ (s.rank : Int) + dr ∧ (s.rank : Int) + dr < 8 ∧
        0 ≤ (s.file : Int) + df ∧ (s.file : Int) + df < 8)) ∧
    ∀ t : Square, s.offset dr df = some t →
      (t.rank : Int) = (s.rank : Int) + dr ∧
      (t.file : Int) = (s.file : Int) + df := by
  rw [Square.offset_spec s dr df hs h1 h2 h3 h4]
  by_cases hcond : 0 ≤ (s.rank : Int) + dr ∧ (s.rank : Int) + dr < 8 ∧
      0 ≤ (s.file : Int) + df ∧ (s.file : Int) + df < 8
  · rw [if_pos hcond]
    constructor
    · simp [hcond]
    · intro t hteq
      rw [Option.some_inj] at hteq
      obtain ⟨hc1, hc2, hc3, hc4⟩ := hcond
      have har : ((s.rank : Int) + dr).toNat < 8 := by omega
      have haf : ((s.file : Int) + df).toNat < 8 := by omega
      obtain ⟨_, hrr, hff⟩ := Square.from_coords_spec _ har _ haf
      rw [← hteq, hrr, hff]
      omega
  · rw [if_neg hcond]
    constructor
    · simp [hcond]
    · intro t hteq
      exact absurd hteq (by simp)

/-- Witness for C8 at e4 (28) with offset (1, 1), landing on f5 (37). -/
theorem C8_offset_bounds_witness :
    (⟨28⟩ : Square).value < 64 ∧
    (⟨28⟩ : Square).offset 1 1 = some ⟨37⟩ ∧
    ((⟨37⟩ : Square).rank : Int) = ((⟨28⟩ : Square).rank : Int) + 1 ∧
    ((⟨37⟩ : Square).file : Int) = ((⟨28⟩ : Square).file : Int) + 1 :=
  ⟨by decide, by decide,
    (C8_offset_bounds ⟨28⟩ 1 1 (by decide) (by decide) (by decide) (by decide)
      (by decide)).2 ⟨37⟩ (by decide)⟩

/-- Claim C6: applying an EnPassant move with a pawn on its source relocates
that pawn to the target and removes the occupant of the square
`(source rank, target file)` returned by `en_passant_capture` — not the
occupant of the target — leaving every other square unchanged. -/
theorem C6_en_passant_capture_square (s : State) (mv : Move) (p : Piece)
    (hs : mv.source.value < 64) (ht : mv.target.value < 64)
    (hm : mv.move_type = some MoveType.EnPassant)
    (hp : s.board.piece_at mv.source = some p)
    (hpt : p.piece_type = some PieceType.Pawn)
    (hr : mv.target.rank ≠ mv.source.rank)
    (hf : mv.target.file ≠ mv.source.file) :
    s.apply_move mv = some (s.apply_en_passant mv) ∧
    (s.apply_en_passant mv).board.piece_at mv.target = some p.with_moved ∧
    (s.apply_en_passant mv).board.piece_at mv.en_passant_capture = Option.none ∧
    (s.apply_en_passant mv).board.piece_at mv.source = Option.none ∧
    ∀ sq : Square, sq ≠ mv.source → sq ≠ mv.target →
      sq ≠ mv.en_passant_capture →
      (s.apply_en_passant mv).board.piece_at sq = s.board.piece_at sq := by
  have hdispatch : s.apply_move mv = some (s.apply_en_passant mv) := by
    unfold State.apply_move
    rw [hm]
  have hsr : mv.source.rank < 8 := by
    rw [Square.rank_eq_div]
    omega
  have htf : mv.target.file < 8 := by
    rw [Square.file_eq_mod]
    omega
  obtain ⟨hepcv, hepcr, hepcf⟩ :=
    Square.from_coords_spec mv.source.rank hsr mv.target.file htf
  have hepc : mv.en_passant_capture =
      Square.from_coords mv.source.rank mv.target.file := rfl
  have hepclt : mv.en_passant_capture.value < 64 := by
    rw [hepc, hepcv]
    omega
  have hvs : mv.source.value ≠ mv.target.value := by
    intro he
    exact hr (by rw [Square.rank_eq_div, Square.rank_eq_div, he])
  have hepct : mv.en_passant_capture.value ≠ mv.target.value := by
    intro he
    apply hr
    have hx : mv.en_passant_capture.rank = mv.source.rank := by
      rw [hepc]
      exact hepcr
    rw [← hx, Square.rank_eq_div, Square.rank_eq_div, he]
  have hepcs : mv.en_passant_capture.value ≠ mv.source.value := by
    intro he
    apply hf
    have hx : mv.en_passant_capture.file = mv.target.file := by
      rw [hepc]
      exact hepcf
    rw [← hx, Square.file_eq_mod, Square.file_eq_mod, he]
  have hp2 : Piece.from_value (s.board.get mv.source) = some p := hp
  obtain ⟨hpv, hocc⟩ := Piece.from_value_eq_some hp2
  have hb : (s.apply_en_passant mv).board =
      ((s.board.write mv.source 0).write mv.target
        p.with_moved.value).write mv.en_passant_capture 0 := by
    simp only [State.apply_en_passant, Board.move_piece, Board.remove_piece,
      hp2, Board.set_piece]
  have hwocc : Piece.is_empty_value p.with_moved.value = false := by
    unfold Piece.is_empty_value
    rw [decide_eq_false_iff_not, Piece.with_moved_occupied, hpv]
    exact hocc
  refine ⟨hdispatch, ?_, ?_, ?_, ?_⟩
  · rw [hb]
    show Piece.from_value _ = _
    rw [Board.get_write_ne _ _ _ _ (Ne.symm hepct),
      Board.get_write_self _ _ _ ht]
    simp [Piece.from_value, hwocc]
  · rw [hb]
    show Piece.from_value _ = _
    rw [Board.get_write_self _ _ _ hepclt]
    decide
  · rw [hb]
    show Piece.from_value _ = _
    rw [Board.get_write_ne _ _ _ _ (Ne.symm hepcs),
      Board.get_write_ne _ _ _ _ hvs,
      Board.get_write_self _ _ _ hs]
    decide
  · intro sq hsq1 hsq2 hsq3
    have hv1 : sq.value ≠ mv.source.value :=
      fun he => hsq1 (Square.eq_of_value_eq he)
    have hv2 : sq.value ≠ mv.target.value :=
      fun he => hsq2 (Square.eq_of_value_eq he)
    have hv3 : sq.value ≠ mv.en_passant_capture.value :=
      fun he => hsq3 (Square.eq_of_value_eq he)
    rw [hb]
    show Piece.from_value _ = _
    rw [Board.get_write_ne _ _ _ _ hv3, Board.get_write_ne _ _ _ _ hv2,
      Board.get_write_ne _ _ _ _ hv1]
    rfl

/-- Witness for C6 at Scenario C: White pawn d5 (35) takes en passant to e6
(44); the Black pawn disappears from e5 (36), not from e6. -/
theorem C6_en_passant_capture_square_witness :
    state_scenario_c.board.piece_at ⟨35⟩ = some (Piece.new .Pawn .White) ∧
    (Move.en_passant ⟨35⟩ ⟨44⟩).en_passant_capture = ⟨36⟩ ∧
    state_scenario_c.board.piece_at ⟨36⟩ = some (Piece.new .Pawn .Black) ∧
    (state_scenario_c.apply_en_passant
      (Move.en_passant ⟨35⟩ ⟨44⟩)).board.piece_at ⟨44⟩ =
      some (Piece.new .Pawn .White).with_moved ∧
    (state_scenario_c.apply_en_passant
      (Move.en_passant ⟨35⟩ ⟨44⟩)).board.piece_at ⟨36⟩ = Option.none :=
  ⟨by decide, by decide, by decide,
    (C6_en_passant_capture_square state_scenario_c (Move.en_passant ⟨35⟩ ⟨44⟩)
      (Piece.new .Pawn .White) (by decide) (by decide) (by decide) (by decide)
      (by decide) (by decide) (by decide)).2.1,
    (C6_en_passant_capture_square state_scenario_c (Move.en_passant ⟨35⟩ ⟨44⟩)
      (Piece.new .Pawn .White) (by decide) (by decide) (by decide) (by decide)
      (by decide) (by decide) (by decide)).2.2.1⟩

/-- Witness for C10: the pawn moved from e2 to e4 on `board_pawn_e2` arrives
with the moved flag set and unchanged kind and color. -/
theorem C10_move_piece_sets_moved_witness :
    (⟨28⟩ : Square).value < 64 ∧
    board_pawn_e2.piece_at ⟨12⟩ = some (Piece.new .Pawn .White) ∧
    (board_pawn_e2.move_piece ⟨12⟩ ⟨28⟩).1.piece_at ⟨28⟩ =
      some (Piece.new .Pawn .White).with_moved ∧
    (Piece.new .Pawn .White).with_moved.has_moved = true :=
  ⟨by decide, by decide,
    (C10_move_piece_sets_moved board_pawn_e2 ⟨12⟩ ⟨28⟩ (Piece.new .Pawn .White)
      (by decide) (by decide)).1,
    (C10_move_piece_sets_moved board_pawn_e2 ⟨12⟩ ⟨28⟩ (Piece.new .Pawn .White)
      (by decide) (by decide)).2.1⟩

end Blitz
